import Mathlib

/-!
Shallow embedding of the Popposite referral-ledger bot (`src/main.js`).

The persistent snapshot `db.json` holds three collections (`users`,
`pendingPurchases`, `withdraws`); every ledger operation reads the snapshot,
mutates it in memory and persists it.  The record store is an external
collaborator, so `db.read()` / `saveDB()` are identity on the in-memory
snapshot here and each JavaScript function becomes a pure state transformer
`DB → DB × result`.  Non-deterministic inputs of the source (`nanoid` ids,
`new Date()` timestamps, the Telegram identity) are passed as explicit
arguments.  JavaScript objects mutated through a reference obtained from
`Array.prototype.find` become `updateFirst` (update of the first list element
satisfying the predicate).
-/

deriving instance DecidableEq for Except

namespace PoppositeRef

/-- `status` field of a withdraw request: `'pending' | 'approved' | 'rejected'`. -/
inductive Status
  | pending
  | approved
  | rejected
deriving DecidableEq

/-- A record of the `users` collection (`db.data.users`). -/
structure User where
  id : Nat
  name : String
  referralCode : String
  referredBy : Option String
  balance : Int
  package : Option String
  packageConfirmedAt : Option Nat
  createdAt : Nat
deriving DecidableEq

/-- A record of the `pendingPurchases` collection. -/
structure PendingPurchase where
  id : String
  userId : Nat
  package : String
  note : String
  createdAt : Nat
deriving DecidableEq

/-- A record of the `withdraws` collection.  The legacy full-balance flow
creates requests without a `paymentMethod` key and creation leaves `note`
unset, hence the `Option` types. -/
structure WithdrawReq where
  id : String
  userId : Nat
  amount : Int
  paymentMethod : Option String
  status : Status
  note : Option String
  createdAt : Nat
  updatedAt : Nat
deriving DecidableEq

/-- The in-memory snapshot `db.data`. -/
structure DB where
  users : List User
  pendingPurchases : List PendingPurchase
  withdraws : List WithdrawReq
deriving DecidableEq

/-- The default data given to `Low`: three empty collections. -/
def initialDB : DB := { users := [], pendingPurchases := [], withdraws := [] }

/-- One row of the `PACKAGES` commission table. -/
structure PackageInfo where
  price : Int
  commission : Int
deriving DecidableEq

/-- `PACKAGES` table; `PACKAGES[pt]` is `undefined` (`none`) off the table. -/
def PACKAGES (pt : String) : Option PackageInfo :=
  if pt = "Basic" then some { price := 1500, commission := 200 }
  else if pt = "Premium" then some { price := 3000, commission := 400 }
  else if pt = "VIP" then some { price := 3500, commission := 500 }
  else none

/-- `MIN_WITHDRAW = 100`. -/
def MIN_WITHDRAW : Int := 100

/-- The `ok: false` error strings returned by the ledger functions. -/
inductive Err
  | invalidAmount
  | insufficientBalance
  | amountMustEndWith00
  | userNotFound
  | invalidPackage
  | withdrawNotFound
  | notPending
deriving DecidableEq

/-- The spec's `InvalidAmount` taxonomy class covers both of the code's
amount-validation error strings (`"Invalid amount"` and
`"Amount must end with 00"`). -/
def isInvalidAmountErrClass : Err → Bool
  | Err.invalidAmount => true
  | Err.amountMustEndWith00 => true
  | _ => false

/-- Update the first element satisfying `p` (JavaScript: mutate the object
returned by `Array.prototype.find`). -/
def updateFirst (p : α → Bool) (f : α → α) : List α → List α
  | [] => []
  | x :: xs => if p x then f x :: xs else x :: updateFirst p f xs

/-- JavaScript truthiness of an optional string (`referralCode || null`,
`if (user.referredBy)`): the empty string is falsy. -/
def strTruthy : Option String → Option String
  | some c => if c = "" then none else some c
  | none => none

/-- `findUserById`. -/
def findUserById (db : DB) (id : Nat) : Option User :=
  db.users.find? (fun u => u.id == id)

/-- `findUserByReferral`. -/
def findUserByReferral (db : DB) (code : String) : Option User :=
  db.users.find? (fun u => u.referralCode == code)

/-- Observed balance of the user record `findUserById` returns. -/
def balanceOf (db : DB) (uid : Nat) : Option Int :=
  (findUserById db uid).map User.balance

/-- `registerUserIfNotExists(ctx, referralCode)`: if the caller's id is
already registered, return the record unchanged; otherwise push a new user
with balance 0, the freshly generated referral code, and
`referredBy: referralCode || null` (stored whether or not it resolves; the
resolution check only gates the best-effort referrer notification, which is
external). -/
def registerUserIfNotExists (db : DB) (fromId : Nat) (fromName : String)
    (referralCode : Option String) (freshCode : String) (now : Nat) :
    DB × User :=
  match findUserById db fromId with
  | some u => (db, u)
  | none =>
    let user : User :=
      { id := fromId
        name := fromName
        referralCode := freshCode
        referredBy := strTruthy referralCode
        balance := 0
        package := none
        packageConfirmedAt := none
        createdAt := now }
    ({ db with users := db.users ++ [user] }, user)

/-- `createWithdrawRequestDynamic(user, amount, paymentMethod)`.  The guard
`!amount || amount <= 0` is `amount ≤ 0` on integers; the `% 100` check is
only reached with `amount > 0`, where JavaScript `%` agrees with `Int.emod`. -/
def createWithdrawRequestDynamic (db : DB) (user : User) (amount : Int)
    (paymentMethod : String) (freshId : String) (now : Nat) :
    DB × Except Err WithdrawReq :=
  if amount ≤ 0 then (db, Except.error Err.invalidAmount)
  else if amount > user.balance then (db, Except.error Err.insufficientBalance)
  else if amount % 100 ≠ 0 then (db, Except.error Err.amountMustEndWith00)
  else
    let request : WithdrawReq :=
      { id := freshId
        userId := user.id
        amount := amount
        paymentMethod := some paymentMethod
        status := Status.pending
        note := none
        createdAt := now
        updatedAt := now }
    let deduct : User → User := fun u => { u with balance := u.balance - amount }
    ({ db with
        withdraws := db.withdraws ++ [request]
        users := updateFirst (fun u => u.id == user.id) deduct db.users },
     Except.ok request)

/-- `confirmPurchase(userId, packageType)`: set the package and confirmation
time on the user, credit the referrer's balance by the package commission when
`user.referredBy` is truthy and resolves, and drop every pending purchase for
this exact (user, package) pair.  The returned record is the live array
element after mutation. -/
def confirmPurchase (db : DB) (userId : Nat) (packageType : String)
    (now : Nat) : DB × Except Err User :=
  match findUserById db userId with
  | none => (db, Except.error Err.userNotFound)
  | some user =>
    match PACKAGES packageType with
    | none => (db, Except.error Err.invalidPackage)
    | some pack =>
      let setPkg : User → User := fun u =>
        { u with package := some packageType, packageConfirmedAt := some now }
      let db1 : DB :=
        { db with users := updateFirst (fun u => u.id == userId) setPkg db.users }
      let credit : User → User := fun u =>
        { u with balance := u.balance + pack.commission }
      let db2 : DB :=
        match strTruthy user.referredBy with
        | none => db1
        | some code =>
          match findUserByReferral db1 code with
          | none => db1
          | some _ =>
            { db1 with
                users := updateFirst (fun u => u.referralCode == code) credit db1.users }
      let keep : PendingPurchase → Bool := fun p =>
        !(p.userId == userId && p.package == packageType)
      let db3 : DB :=
        { db2 with pendingPurchases := db2.pendingPurchases.filter keep }
      (db3, Except.ok ((findUserById db2 userId).getD user))

/-- Legacy `createWithdrawRequest(user)`: unconditionally push a pending
request for the user's whole balance and reset the balance to 0. -/
def createWithdrawRequest (db : DB) (user : User) (freshId : String)
    (now : Nat) : DB × WithdrawReq :=
  let request : WithdrawReq :=
    { id := freshId
      userId := user.id
      amount := user.balance
      paymentMethod := none
      status := Status.pending
      note := none
      createdAt := now
      updatedAt := now }
  let reset : User → User := fun u => { u with balance := 0 }
  ({ db with
      withdraws := db.withdraws ++ [request]
      users := updateFirst (fun u => u.id == user.id) reset db.users },
   request)

/-- `approveWithdrawRequest(withdrawId, note)`. -/
def approveWithdrawRequest (db : DB) (withdrawId : String) (note : String)
    (now : Nat) : DB × Except Err WithdrawReq :=
  match db.withdraws.find? (fun x => x.id == withdrawId) with
  | none => (db, Except.error Err.withdrawNotFound)
  | some w =>
    if w.status ≠ Status.pending then (db, Except.error Err.notPending)
    else
      let mark : WithdrawReq → WithdrawReq := fun x =>
        { x with status := Status.approved, updatedAt := now, note := some note }
      ({ db with
          withdraws := updateFirst (fun x => x.id == withdrawId) mark db.withdraws },
       Except.ok (mark w))

/-- `rejectWithdrawRequest(withdrawId, reason)`: mark rejected and, when the
owning user record exists, add the reserved amount back to its balance
(`reason || ""` is the identity on strings). -/
def rejectWithdrawRequest (db : DB) (withdrawId : String) (reason : String)
    (now : Nat) : DB × Except Err WithdrawReq :=
  match db.withdraws.find? (fun x => x.id == withdrawId) with
  | none => (db, Except.error Err.withdrawNotFound)
  | some w =>
    if w.status ≠ Status.pending then (db, Except.error Err.notPending)
    else
      let mark : WithdrawReq → WithdrawReq := fun x =>
        { x with status := Status.rejected, updatedAt := now, note := some reason }
      let db1 : DB :=
        { db with
            withdraws := updateFirst (fun x => x.id == withdrawId) mark db.withdraws }
      let refund : User → User := fun u => { u with balance := u.balance + w.amount }
      let db2 : DB :=
        match findUserById db1 w.userId with
        | none => db1
        | some _ =>
          { db1 with
              users := updateFirst (fun u => u.id == w.userId) refund db1.users }
      (db2, Except.ok (mark w))

/-- `addPendingPurchase(userId, packageType, note)`. -/
def addPendingPurchase (db : DB) (userId : Nat) (packageType : String)
    (note : String) (freshId : String) (now : Nat) :
    DB × Except Err PendingPurchase :=
  match findUserById db userId with
  | none => (db, Except.error Err.userNotFound)
  | some _ =>
    match PACKAGES packageType with
    | none => (db, Except.error Err.invalidPackage)
    | some _ =>
      let entry : PendingPurchase :=
        { id := freshId
          userId := userId
          package := packageType
          note := note
          createdAt := now }
      ({ db with pendingPurchases := db.pendingPurchases ++ [entry] },
       Except.ok entry)

/-- One ledger operation as dispatched by the bot's command handlers: the
handlers that pass a `user` object to a ledger function obtain it with
`findUserById(ctx.from.id)` first and do nothing on a missing user. -/
inductive Op
  | register (fromId : Nat) (fromName : String) (referralCode : Option String)
      (freshCode : String) (now : Nat)
  | confirm (userId : Nat) (packageType : String) (now : Nat)
  | withdrawDynamic (userId : Nat) (amount : Int) (paymentMethod : String)
      (freshId : String) (now : Nat)
  | withdrawLegacy (userId : Nat) (freshId : String) (now : Nat)
  | approve (withdrawId : String) (note : String) (now : Nat)
  | reject (withdrawId : String) (reason : String) (now : Nat)
  | addPending (userId : Nat) (packageType : String) (note : String)
      (freshId : String) (now : Nat)

/-- State effect of one ledger operation. -/
def applyOp (db : DB) : Op → DB
  | Op.register a b c d e => (registerUserIfNotExists db a b c d e).1
  | Op.confirm a b c => (confirmPurchase db a b c).1
  | Op.withdrawDynamic uid amt m fid now =>
    match findUserById db uid with
    | none => db
    | some user => (createWithdrawRequestDynamic db user amt m fid now).1
  | Op.withdrawLegacy uid fid now =>
    match findUserById db uid with
    | none => db
    | some user => (createWithdrawRequest db user fid now).1
  | Op.approve wid note now => (approveWithdrawRequest db wid note now).1
  | Op.reject wid r now => (rejectWithdrawRequest db wid r now).1
  | Op.addPending a b c d e => (addPendingPurchase db a b c d e).1

/-- Run a sequence of ledger operations. -/
def runOps (db : DB) : List Op → DB
  | [] => db
  | op :: ops => runOps (applyOp db op) ops

/-- A `userSessions` entry: `{ action: 'withdraw', step: 'amount' }` or, after
a valid amount, `{ action: 'withdraw', step: 'method', data: { amount } }`. -/
inductive Session
  | awaitingAmount
  | awaitingMethod (amount : Int)
deriving DecidableEq

/-- The `userSessions` map, keyed by Telegram user id. -/
abbrev Sessions : Type := List (Nat × Session)

/-- `userSessions[uid]`. -/
def getSession (ss : Sessions) (uid : Nat) : Option Session :=
  ((List.find? (fun e => e.1 == uid)) ss).map Prod.snd

/-- `userSessions[uid] = s`. -/
def setSession (ss : Sessions) (uid : Nat) (s : Session) : Sessions :=
  (uid, s) :: (List.filter (fun e => e.1 != uid)) ss

/-- `delete userSessions[uid]`. -/
def deleteSession (ss : Sessions) (uid : Nat) : Sessions :=
  (List.filter (fun e => e.1 != uid)) ss

/-- Replies rendered back through the chat transport, abstracted to tags. -/
inductive Reply
  | silent
  | canceled
  | userNotFound
  | invalidAmountMsg
  | insufficientMsg
  | chooseMethod
  | invalidMethod
  | submitted
  | errorMsg (e : Err)
  | enterAmount
  | minWithdrawMsg
  | startFirst
deriving DecidableEq

/-- Whitespace for the model of `String.prototype.trim`. -/
def isWsChar (c : Char) : Bool :=
  c == ' ' || c == '\t' || c == '\n' || c == '\r'

/-- Model of JavaScript `text.trim()`. -/
def trimStr (s : String) : String :=
  String.mk (((s.data.dropWhile isWsChar).reverse.dropWhile isWsChar).reverse)

/-- Model of JavaScript `text.toLowerCase()`. -/
def lowerStr (s : String) : String :=
  String.mk (s.data.map Char.toLower)

/-- Does the character list start with the given pattern? -/
def startsWithList : List Char → List Char → Bool
  | _, [] => true
  | [], _ :: _ => false
  | c :: cs, p :: ps => c == p && startsWithList cs ps

/-- Does the character list contain the pattern as a contiguous run? -/
def containsList : List Char → List Char → Bool
  | [], p => p.isEmpty
  | c :: cs, p => startsWithList (c :: cs) p || containsList cs p

/-- Model of JavaScript `s.includes(pat)`. -/
def jsIncludes (s pat : String) : Bool :=
  containsList s.data pat.data

/-- Model of JavaScript `parseInt(s, 10)`: skip leading whitespace, read an
optional sign and then the longest run of decimal digits; `none` is `NaN`. -/
def parseIntJs (s : String) : Option Int :=
  let cs := (s.data.dropWhile isWsChar)
  let signRest : Int × List Char :=
    match cs with
    | '-' :: r => (-1, r)
    | '+' :: r => (1, r)
    | _ => (1, cs)
  let ds := signRest.2.takeWhile Char.isDigit
  if ds.isEmpty then none
  else
    some (signRest.1 *
      ((ds.foldl (fun acc c => acc * 10 + (c.toNat - 48)) (0 : Nat) : Nat) : Int))

/-- The `/withdraw` command: require a registered user with balance at least
`MIN_WITHDRAW`, then open an amount-step session. -/
def withdrawCommand (db : DB) (ss : Sessions) (fromId : Nat) :
    Sessions × Reply :=
  match findUserById db fromId with
  | none => (ss, Reply.startFirst)
  | some user =>
    if user.balance < MIN_WITHDRAW then (ss, Reply.minWithdrawMsg)
    else (setSession ss fromId Session.awaitingAmount, Reply.enterAmount)

/-- The final commit step of the session: `createWithdrawRequestDynamic`; on
failure the session stays, on success it is deleted. -/
def commitWithdraw (db : DB) (ss : Sessions) (fromId : Nat) (user : User)
    (amount : Int) (method : String) (freshId : String) (now : Nat) :
    DB × Sessions × Reply :=
  match createWithdrawRequestDynamic db user amount method freshId now with
  | (db2, Except.error e) => (db2, ss, Reply.errorMsg e)
  | (db2, Except.ok _) => (db2, deleteSession ss fromId, Reply.submitted)

/-- The `bot.on("text")` handler: drives the per-user withdraw session.
`parseInt` is applied to the raw text, everything else to the trimmed,
lower-cased text. -/
def onText (db : DB) (ss : Sessions) (fromId : Nat) (rawText : String)
    (freshId : String) (now : Nat) : DB × Sessions × Reply :=
  match getSession ss fromId with
  | none => (db, ss, Reply.silent)
  | some session =>
    let text := lowerStr (trimStr rawText)
    if text == "cancel" then (db, deleteSession ss fromId, Reply.canceled)
    else
      match findUserById db fromId with
      | none => (db, ss, Reply.userNotFound)
      | some user =>
        match session with
        | Session.awaitingAmount =>
          match parseIntJs rawText with
          | none => (db, ss, Reply.invalidAmountMsg)
          | some amount =>
            if amount ≤ 0 ∨ amount % 100 ≠ 0 then (db, ss, Reply.invalidAmountMsg)
            else if amount > user.balance then (db, ss, Reply.insufficientMsg)
            else
              (db, setSession ss fromId (Session.awaitingMethod amount),
               Reply.chooseMethod)
        | Session.awaitingMethod amount =>
          if jsIncludes text "telebirr" || text == "1" then
            commitWithdraw db ss fromId user amount "Telebirr" freshId now
          else if jsIncludes text "cbe" || text == "2" then
            commitWithdraw db ss fromId user amount "CBE" freshId now
          else if jsIncludes text "transfer" || text == "3" then
            commitWithdraw db ss fromId user amount "Transfer" freshId now
          else (db, ss, Reply.invalidMethod)

/-! ### Generic lemmas about `updateFirst` and `List.find?` -/

theorem updateFirst_forall {α : Type} {P : α → Prop} {q : α → Bool} {f : α → α}
    {l : List α} (h : ∀ x ∈ l, P x) (hf : ∀ x, P x → P (f x)) :
    ∀ x ∈ updateFirst q f l, P x := by
  induction l with
  | nil => intro x hx; simp [updateFirst] at hx
  | cons b l ih =>
    intro x hx
    by_cases hqb : q b
    · simp only [updateFirst, if_pos hqb, List.mem_cons] at hx
      rcases hx with h1 | h2
      · exact h1 ▸ hf b (h b (List.mem_cons_self b l))
      · exact h x (List.mem_cons_of_mem b h2)
    · simp only [updateFirst, if_neg hqb, List.mem_cons] at hx
      rcases hx with h1 | h2
      · exact h1 ▸ h b (List.mem_cons_self b l)
      · exact ih (fun y hy => h y (List.mem_cons_of_mem b hy)) x h2

theorem updateFirst_pres {α : Type} {P : α → Prop} {q : α → Bool} {f : α → α}
    {l : List α} {a : α} (h : ∀ x ∈ l, P x) (ha : l.find? q = some a)
    (hfa : P (f a)) : ∀ x ∈ updateFirst q f l, P x := by
  induction l with
  | nil => simp at ha
  | cons b l ih =>
    intro x hx
    cases hqb : q b with
    | true =>
      rw [List.find?_cons_of_pos l hqb] at ha
      injection ha with ha
      simp only [updateFirst, if_pos hqb, List.mem_cons] at hx
      rcases hx with h1 | h2
      · exact h1 ▸ (ha ▸ hfa)
      · exact h x (List.mem_cons_of_mem b h2)
    | false =>
      rw [List.find?_cons_of_neg l (by simp [hqb])] at ha
      simp only [updateFirst, hqb, if_neg (by simp : ¬ (false = true)),
        List.mem_cons] at hx
      rcases hx with h1 | h2
      · exact h1 ▸ h b (List.mem_cons_self b l)
      · exact ih (fun y hy => h y (List.mem_cons_of_mem b hy)) ha x h2

theorem find?_updateFirst_self {α : Type} {q : α → Bool} {f : α → α}
    {l : List α} (hq : ∀ x, q (f x) = q x) :
    (updateFirst q f l).find? q = (l.find? q).map f := by
  induction l with
  | nil => simp [updateFirst]
  | cons b l ih =>
    cases hqb : q b with
    | true =>
      rw [List.find?_cons_of_pos l hqb]
      simp only [updateFirst, if_pos hqb]
      rw [List.find?_cons_of_pos l (by rw [hq]; exact hqb)]
      rfl
    | false =>
      rw [List.find?_cons_of_neg l (by simp [hqb])]
      simp only [updateFirst, hqb, if_neg (by simp : ¬ (false = true))]
      rw [List.find?_cons_of_neg _ (by simp [hqb])]
      exact ih

theorem find?_map_updateFirst {α β : Type} {p q : α → Bool} {f : α → α}
    (g : α → β) {l : List α} (hp : ∀ x, p (f x) = p x)
    (hg : ∀ x, g (f x) = g x) :
    ((updateFirst q f l).find? p).map g = (l.find? p).map g := by
  induction l with
  | nil => simp [updateFirst]
  | cons b l ih =>
    cases hqb : q b with
    | true =>
      simp only [updateFirst, if_pos hqb]
      cases hpb : p b with
      | true =>
        rw [List.find?_cons_of_pos l (by rw [hp]; exact hpb),
          List.find?_cons_of_pos l hpb]
        simp [hg]
      | false =>
        rw [List.find?_cons_of_neg l (by simp [hp, hpb]),
          List.find?_cons_of_neg l (by simp [hpb])]
    | false =>
      simp only [updateFirst, hqb, if_neg (by simp : ¬ (false = true))]
      cases hpb : p b with
      | true =>
        rw [List.find?_cons_of_pos _ hpb, List.find?_cons_of_pos l hpb]
      | false =>
        rw [List.find?_cons_of_neg _ (by simp [hpb]),
          List.find?_cons_of_neg l (by simp [hpb])]
        exact ih

theorem find?_updateFirst_eq {α : Type} {p q : α → Bool} {f : α → α}
    {l : List α} (h : ∀ x, q x = true → p x = false ∧ p (f x) = false) :
    (updateFirst q f l).find? p = l.find? p := by
  induction l with
  | nil => rfl
  | cons b l ih =>
    cases hqb : q b with
    | true =>
      obtain ⟨h1, h2⟩ := h b hqb
      simp only [updateFirst, if_pos hqb]
      rw [List.find?_cons_of_neg l (by simp [h2]),
        List.find?_cons_of_neg l (by simp [h1])]
    | false =>
      simp only [updateFirst, hqb, if_neg (by simp : ¬ (false = true))]
      cases hpb : p b with
      | true =>
        rw [List.find?_cons_of_pos _ hpb, List.find?_cons_of_pos l hpb]
      | false =>
        rw [List.find?_cons_of_neg _ (by simp [hpb]),
          List.find?_cons_of_neg l (by simp [hpb])]
        exact ih

theorem find?_updateFirst_frozen {α : Type} {p q : α → Bool} {f : α → α}
    {l : List α} {w : α} (hw : l.find? p = some w)
    (h : ∀ a, l.find? q = some a → a ≠ w ∧ p (f a) = p a) :
    (updateFirst q f l).find? p = some w := by
  induction l with
  | nil => simp at hw
  | cons b l ih =>
    cases hqb : q b with
    | true =>
      obtain ⟨hne, hpf⟩ := h b (List.find?_cons_of_pos l hqb)
      cases hpb : p b with
      | true =>
        rw [List.find?_cons_of_pos l hpb] at hw
        injection hw with hw
        exact absurd hw hne
      | false =>
        rw [List.find?_cons_of_neg l (by simp [hpb])] at hw
        simp only [updateFirst, if_pos hqb]
        rw [List.find?_cons_of_neg l (by simp [hpf, hpb])]
        exact hw
    | false =>
      simp only [updateFirst, hqb, if_neg (by simp : ¬ (false = true))]
      cases hpb : p b with
      | true =>
        rw [List.find?_cons_of_pos l hpb] at hw
        rw [List.find?_cons_of_pos _ hpb]
        exact hw
      | false =>
        rw [List.find?_cons_of_neg l (by simp [hpb])] at hw
        rw [List.find?_cons_of_neg _ (by simp [hpb])]
        exact ih hw (fun a ha => h a
          (by rw [List.find?_cons_of_neg l (by simp [hqb])]; exact ha))

theorem find?_append_left {α : Type} {p : α → Bool} {l1 l2 : List α} {a : α}
    (h : l1.find? p = some a) : (l1 ++ l2).find? p = some a := by
  rw [List.find?_append, h]
  rfl

/-! ### Balance invariant (claim C1) -/

def BalancesNonneg (db : DB) : Prop := ∀ u ∈ db.users, 0 ≤ u.balance
def AmountsNonneg (db : DB) : Prop := ∀ w ∈ db.withdraws, 0 ≤ w.amount
def LedgerInv (db : DB) : Prop := BalancesNonneg db ∧ AmountsNonneg db

theorem PACKAGES_commission_nonneg {pt : String} {pack : PackageInfo}
    (h : PACKAGES pt = some pack) : 0 ≤ pack.commission := by
  unfold PACKAGES at h
  split_ifs at h <;> simp only [Option.some.injEq] at h <;> try subst h
  · decide
  · decide
  · decide

theorem register_inv {db : DB} {a : Nat} {b : String} {c : Option String}
    {d : String} {e : Nat} (h : LedgerInv db) :
    LedgerInv (registerUserIfNotExists db a b c d e).1 := by
  obtain ⟨hb, ha⟩ := h
  unfold registerUserIfNotExists
  cases hfind : findUserById db a with
  | some u => exact ⟨hb, ha⟩
  | none =>
    refine ⟨?_, ha⟩
    intro x hx
    simp only [List.mem_append, List.mem_singleton] at hx
    rcases hx with h1 | h2
    · exact hb x h1
    · rw [h2]

theorem cwrd_inv {db : DB} {uid : Nat} {user : User} {amount : Int}
    {m fid : String} {now : Nat}
    (hfind : findUserById db uid = some user) (h : LedgerInv db) :
    LedgerInv (createWithdrawRequestDynamic db user amount m fid now).1 := by
  obtain ⟨hb, ha⟩ := h
  have hfind2 : db.users.find? (fun u => u.id == uid) = some user := hfind
  have hbeq := List.find?_some hfind2
  have hid : user.id = uid := eq_of_beq hbeq
  unfold createWithdrawRequestDynamic
  split_ifs with h1 h2 h3
  · exact ⟨hb, ha⟩
  · exact ⟨hb, ha⟩
  · exact ⟨hb, ha⟩
  · refine ⟨?_, ?_⟩
    · intro x hx
      have hfind3 : db.users.find? (fun u => u.id == user.id) = some user := by
        simp only [hid]; exact hfind2
      refine updateFirst_pres hb hfind3 ?_ x hx
      show (0:Int) ≤ user.balance - amount
      omega
    · intro w hw
      simp only [List.mem_append, List.mem_singleton] at hw
      rcases hw with hw1 | hw2
      · exact ha w hw1
      · rw [hw2]
        show (0:Int) ≤ amount
        omega

theorem cwr_inv {db : DB} {uid : Nat} {user : User} {fid : String} {now : Nat}
    (hfind : findUserById db uid = some user) (h : LedgerInv db) :
    LedgerInv (createWithdrawRequest db user fid now).1 := by
  obtain ⟨hb, ha⟩ := h
  have hfind2 : db.users.find? (fun u => u.id == uid) = some user := hfind
  have hmem : user ∈ db.users := List.mem_of_find?_eq_some hfind2
  unfold createWithdrawRequest
  dsimp only
  refine ⟨?_, ?_⟩
  · intro x hx
    refine updateFirst_forall hb (fun y hy => ?_) x hx
    show (0:Int) ≤ 0
    exact le_refl 0
  · intro w hw
    simp only [List.mem_append, List.mem_singleton] at hw
    rcases hw with hw1 | hw2
    · exact ha w hw1
    · rw [hw2]
      show (0:Int) ≤ user.balance
      exact hb user hmem

theorem approve_inv {db : DB} {wid note : String} {now : Nat}
    (h : LedgerInv db) : LedgerInv (approveWithdrawRequest db wid note now).1 := by
  obtain ⟨hb, ha⟩ := h
  unfold approveWithdrawRequest
  split
  · exact ⟨hb, ha⟩
  · split_ifs with h1
    · exact ⟨hb, ha⟩
    · dsimp only
      refine ⟨hb, ?_⟩
      intro x hx
      refine updateFirst_forall ha (fun y hy => ?_) x hx
      exact hy

theorem reject_inv {db : DB} {wid reason : String} {now : Nat}
    (h : LedgerInv db) : LedgerInv (rejectWithdrawRequest db wid reason now).1 := by
  obtain ⟨hb, ha⟩ := h
  unfold rejectWithdrawRequest
  split
  · exact ⟨hb, ha⟩
  · rename_i w hfind
    split_ifs with h1
    · exact ⟨hb, ha⟩
    · have hwmem : w ∈ db.withdraws := List.mem_of_find?_eq_some hfind
      have hwa : (0:Int) ≤ w.amount := ha w hwmem
      dsimp only
      split
      · refine ⟨hb, ?_⟩
        intro x hx
        refine updateFirst_forall ha (fun y hy => ?_) x hx
        exact hy
      · refine ⟨?_, ?_⟩
        · intro x hx
          refine updateFirst_forall hb (fun y hy => ?_) x hx
          show (0:Int) ≤ y.balance + w.amount
          omega
        · intro x hx
          refine updateFirst_forall ha (fun y hy => ?_) x hx
          exact hy

theorem confirm_inv {db : DB} {uid : Nat} {pt : String} {now : Nat}
    (h : LedgerInv db) : LedgerInv (confirmPurchase db uid pt now).1 := by
  obtain ⟨hb, ha⟩ := h
  unfold confirmPurchase
  split
  · exact ⟨hb, ha⟩
  · rename_i user hfu
    split
    · exact ⟨hb, ha⟩
    · rename_i pack hpk
      have hc := PACKAGES_commission_nonneg hpk
      dsimp only
      split
      · refine ⟨?_, ha⟩
        intro x hx
        refine updateFirst_forall hb (fun y hy => ?_) x hx
        exact hy
      · split
        · refine ⟨?_, ha⟩
          intro x hx
          refine updateFirst_forall hb (fun y hy => ?_) x hx
          exact hy
        · refine ⟨?_, ha⟩
          intro x hx
          refine updateFirst_forall
            (updateFirst_forall hb (fun y hy => ?_)) (fun z hz => ?_) x hx
          · exact hy
          · show (0:Int) ≤ z.balance + pack.commission
            omega

theorem addPending_inv {db : DB} {uid : Nat} {pt note fid : String} {now : Nat}
    (h : LedgerInv db) : LedgerInv (addPendingPurchase db uid pt note fid now).1 := by
  obtain ⟨hb, ha⟩ := h
  unfold addPendingPurchase
  split
  · exact ⟨hb, ha⟩
  · split
    · exact ⟨hb, ha⟩
    · exact ⟨hb, ha⟩

theorem applyOp_inv {db : DB} (op : Op) (h : LedgerInv db) :
    LedgerInv (applyOp db op) := by
  cases op with
  | register a b c d e => exact register_inv h
  | confirm a b c => exact confirm_inv h
  | withdrawDynamic uid amt m fid now =>
    show LedgerInv (match findUserById db uid with
      | none => db
      | some user => (createWithdrawRequestDynamic db user amt m fid now).1)
    cases hfu : findUserById db uid with
    | none => exact h
    | some user => exact cwrd_inv hfu h
  | withdrawLegacy uid fid now =>
    show LedgerInv (match findUserById db uid with
      | none => db
      | some user => (createWithdrawRequest db user fid now).1)
    cases hfu : findUserById db uid with
    | none => exact h
    | some user => exact cwr_inv hfu h
  | approve wid note now => exact approve_inv h
  | reject wid reason now => exact reject_inv h
  | addPending a b c d e => exact addPending_inv h

theorem runOps_inv {db : DB} (ops : List Op) (h : LedgerInv db) :
    LedgerInv (runOps db ops) := by
  induction ops generalizing db with
  | nil => exact h
  | cons op ops ih => exact ih (applyOp_inv op h)

theorem initialDB_inv : LedgerInv initialDB := by
  refine ⟨?_, ?_⟩ <;> intro x hx <;> simp [initialDB] at hx


/-! ### The claims -/

/-- Claim C1: for every user and every sequence of ledger operations starting
from the initial empty snapshot (registration, purchase confirmation,
withdrawal creation in either variant, withdrawal approval, withdrawal
rejection, pending-purchase recording), the user's balance is a non-negative
integer after each operation. -/
theorem claim1_balance_nonneg (ops : List Op) (u : User)
    (hu : u ∈ (runOps initialDB ops).users) : 0 ≤ u.balance :=
  (runOps_inv ops initialDB_inv).1 u hu

/-- The record created by the witness run for C1. -/
def c1RegUser : User :=
  { id := 1, name := "A", referralCode := "r1", referredBy := none,
    balance := 0, package := none, packageConfirmedAt := none, createdAt := 0 }

/-- Witness for C1 at a concrete one-operation run. -/
theorem claim1_balance_nonneg_witness : 0 ≤ c1RegUser.balance :=
  claim1_balance_nonneg [Op.register 1 "A" none "r1" 0] c1RegUser (by decide)

/-- Claim C2: rejecting a pending withdrawal adds its amount back to the
owning user's balance exactly once and changes no other balance; approving a
pending withdrawal leaves every user's balance unchanged. -/
theorem claim2_reject_restores_approve_preserves (db : DB) (wid : String)
    (w : WithdrawReq) (user : User) (reason note : String) (now : Nat)
    (hw : db.withdraws.find? (fun x => x.id == wid) = some w)
    (hp : w.status = Status.pending)
    (hu : findUserById db w.userId = some user) :
    balanceOf (rejectWithdrawRequest db wid reason now).1 w.userId
        = some (user.balance + w.amount)
    ∧ (∀ uid, uid ≠ w.userId →
        balanceOf (rejectWithdrawRequest db wid reason now).1 uid = balanceOf db uid)
    ∧ (∀ uid, balanceOf (approveWithdrawRequest db wid note now).1 uid
        = balanceOf db uid) := by
  have hu2 : db.users.find? (fun u => u.id == w.userId) = some user := hu
  refine ⟨?_, ?_, ?_⟩
  · simp only [rejectWithdrawRequest, hw, hp, ne_eq, not_true_eq_false,
      if_false, balanceOf, findUserById, hu2]
    rw [find?_updateFirst_self (q := fun u : User => u.id == w.userId)
      (f := fun u : User => { u with balance := u.balance + w.amount }) (fun x => rfl), hu2]
    rfl
  · intro uid huid
    simp only [rejectWithdrawRequest, hw, hp, ne_eq, not_true_eq_false,
      if_false, balanceOf, findUserById, hu2]
    rw [find?_updateFirst_eq]
    intro x hx
    have hxid : x.id = w.userId := eq_of_beq hx
    constructor
    · simp [hxid]
      exact fun hcon => huid hcon.symm
    · show (x.id == uid) = false
      simp [hxid]
      exact fun hcon => huid hcon.symm
  · intro uid
    simp only [approveWithdrawRequest, hw, hp, ne_eq, not_true_eq_false,
      if_false, balanceOf, findUserById]

/-- Concrete user for the C2 witness. -/
def c2User : User :=
  { id := 2, name := "Q", referralCode := "q2", referredBy := none,
    balance := 100, package := none, packageConfirmedAt := none, createdAt := 0 }

/-- Concrete pending request for the C2 witness. -/
def c2Req : WithdrawReq :=
  { id := "w1", userId := 2, amount := 200, paymentMethod := some "CBE",
    status := Status.pending, note := none, createdAt := 0, updatedAt := 0 }

/-- Concrete snapshot for the C2 witness. -/
def c2DB : DB := { users := [c2User], pendingPurchases := [], withdraws := [c2Req] }

/-- Witness for C2 at a concrete pending request. -/
theorem claim2_witness :
    balanceOf (rejectWithdrawRequest c2DB "w1" "slow" 5).1 c2Req.userId
        = some (c2User.balance + c2Req.amount)
    ∧ (∀ uid, uid ≠ c2Req.userId →
        balanceOf (rejectWithdrawRequest c2DB "w1" "slow" 5).1 uid = balanceOf c2DB uid)
    ∧ (∀ uid, balanceOf (approveWithdrawRequest c2DB "w1" "ok" 5).1 uid
        = balanceOf c2DB uid) :=
  claim2_reject_restores_approve_preserves c2DB "w1" c2Req c2User "slow" "ok" 5
    (by decide) rfl (by decide)

theorem register_withdraws (db : DB) (a : Nat) (b : String) (c : Option String)
    (d : String) (e : Nat) :
    (registerUserIfNotExists db a b c d e).1.withdraws = db.withdraws := by
  unfold registerUserIfNotExists
  cases findUserById db a <;> rfl

theorem confirm_withdraws (db : DB) (uid : Nat) (pt : String) (now : Nat) :
    (confirmPurchase db uid pt now).1.withdraws = db.withdraws := by
  unfold confirmPurchase
  cases findUserById db uid with
  | none => rfl
  | some user =>
    cases PACKAGES pt with
    | none => rfl
    | some pack =>
      dsimp only
      split
      · rfl
      · split <;> rfl

theorem addPending_withdraws (db : DB) (uid : Nat) (pt note fid : String)
    (now : Nat) :
    (addPendingPurchase db uid pt note fid now).1.withdraws = db.withdraws := by
  unfold addPendingPurchase
  cases findUserById db uid with
  | none => rfl
  | some user => cases PACKAGES pt <;> rfl

/-- Claim C3: a request whose status has left "pending" is frozen — approving
or rejecting it returns the not-pending error and the whole state is
unchanged, and no ledger operation ever modifies the stored record again. -/
theorem claim3_resolved_request_frozen (db : DB) (wid : String)
    (w : WithdrawReq) (note reason : String) (now : Nat)
    (hw : db.withdraws.find? (fun x => x.id == wid) = some w)
    (hp : w.status ≠ Status.pending) :
    approveWithdrawRequest db wid note now = (db, Except.error Err.notPending)
    ∧ rejectWithdrawRequest db wid reason now = (db, Except.error Err.notPending)
    ∧ ∀ op : Op, (applyOp db op).withdraws.find? (fun x => x.id == wid) = some w := by
  refine ⟨?_, ?_, ?_⟩
  · simp only [approveWithdrawRequest, hw, if_pos hp]
  · simp only [rejectWithdrawRequest, hw, if_pos hp]
  · intro op
    cases op with
    | register a b c d e =>
      rw [show applyOp db (Op.register a b c d e)
          = (registerUserIfNotExists db a b c d e).1 from rfl,
        register_withdraws]
      exact hw
    | confirm a b c =>
      rw [show applyOp db (Op.confirm a b c) = (confirmPurchase db a b c).1 from rfl,
        confirm_withdraws]
      exact hw
    | addPending a b c d e =>
      rw [show applyOp db (Op.addPending a b c d e)
          = (addPendingPurchase db a b c d e).1 from rfl,
        addPending_withdraws]
      exact hw
    | withdrawDynamic uid amt m fid now2 =>
      show (match findUserById db uid with
        | none => db
        | some user =>
          (createWithdrawRequestDynamic db user amt m fid now2).1).withdraws.find?
          (fun x => x.id == wid) = some w
      cases findUserById db uid with
      | none => exact hw
      | some user =>
        dsimp only
        unfold createWithdrawRequestDynamic
        split_ifs
        · exact hw
        · exact hw
        · exact hw
        · dsimp only
          exact find?_append_left hw
    | withdrawLegacy uid fid now2 =>
      show (match findUserById db uid with
        | none => db
        | some user =>
          (createWithdrawRequest db user fid now2).1).withdraws.find?
          (fun x => x.id == wid) = some w
      cases findUserById db uid with
      | none => exact hw
      | some user =>
        dsimp only
        unfold createWithdrawRequest
        dsimp only
        exact find?_append_left hw
    | approve wid2 note2 now2 =>
      show (approveWithdrawRequest db wid2 note2 now2).1.withdraws.find?
        (fun x => x.id == wid) = some w
      unfold approveWithdrawRequest
      split
      · exact hw
      · rename_i a hfind2
        split_ifs with h2
        · exact hw
        · dsimp only
          refine find?_updateFirst_frozen hw ?_
          intro b hb2
          rw [hfind2] at hb2
          injection hb2 with hb2
          subst hb2
          have hap : a.status = Status.pending := not_not.mp h2
          exact ⟨fun heq => hp (heq ▸ hap), rfl⟩
    | reject wid2 reason2 now2 =>
      show (rejectWithdrawRequest db wid2 reason2 now2).1.withdraws.find?
        (fun x => x.id == wid) = some w
      unfold rejectWithdrawRequest
      split
      · exact hw
      · rename_i a hfind2
        split_ifs with h2
        · exact hw
        · dsimp only
          split
          · refine find?_updateFirst_frozen hw ?_
            intro b hb2
            rw [hfind2] at hb2
            injection hb2 with hb2
            subst hb2
            have hap : a.status = Status.pending := not_not.mp h2
            exact ⟨fun heq => hp (heq ▸ hap), rfl⟩
          · refine find?_updateFirst_frozen hw ?_
            intro b hb2
            rw [hfind2] at hb2
            injection hb2 with hb2
            subst hb2
            have hap : a.status = Status.pending := not_not.mp h2
            exact ⟨fun heq => hp (heq ▸ hap), rfl⟩

/-- Concrete already-approved request for the C3 witness. -/
def c3Req : WithdrawReq :=
  { id := "w2", userId := 2, amount := 100, paymentMethod := some "CBE",
    status := Status.approved, note := none, createdAt := 0, updatedAt := 0 }

/-- Concrete snapshot for the C3 witness. -/
def c3DB : DB := { users := [], pendingPurchases := [], withdraws := [c3Req] }

/-- Witness for C3 at a concrete resolved request. -/
theorem claim3_witness :
    approveWithdrawRequest c3DB "w2" "ok" 7 = (c3DB, Except.error Err.notPending)
    ∧ rejectWithdrawRequest c3DB "w2" "no" 7 = (c3DB, Except.error Err.notPending)
    ∧ ∀ op : Op, (applyOp c3DB op).withdraws.find? (fun x => x.id == "w2")
        = some c3Req :=
  claim3_resolved_request_frozen c3DB "w2" c3Req "ok" "no" 7 (by decide) (by decide)

/-- Concrete user with balance 100 for C4. -/
def c4User : User :=
  { id := 3, name := "C", referralCode := "r3", referredBy := none,
    balance := 100, package := none, packageConfirmedAt := none, createdAt := 0 }

/-- Concrete snapshot for C4. -/
def c4DB : DB := { users := [c4User], pendingPurchases := [], withdraws := [] }

/-- C4 counterexample: at amount 150 on balance 100 the amount is not a
multiple of 100, so the claim demands an InvalidAmount-class failure, yet the
code checks the balance first and fails with the insufficient-balance error. -/
theorem claim4_counterexample :
    (createWithdrawRequestDynamic c4DB c4User 150 "Telebirr" "wX" 0).2
        = Except.error Err.insufficientBalance
    ∧ isInvalidAmountErrClass Err.insufficientBalance = false
    ∧ (150 : Int) % 100 ≠ 0 ∧ c4User.balance < 150 := by decide

/-- Claim C4 as amended: the checks run in source order, so `InvalidAmount`
("Invalid amount") is returned whenever `amount ≤ 0`; `InsufficientBalance`
whenever `0 < amount` and `amount > balance`; and the multiple-of-100 form of
`InvalidAmount` ("Amount must end with 00") only when `0 < amount ≤ balance`
and `amount % 100 ≠ 0`.  Every failure returns the snapshot unchanged. -/
theorem claim4_create_withdrawal_errors (db : DB) (user : User) (amount : Int)
    (m fid : String) (now : Nat) :
    (amount ≤ 0 →
      createWithdrawRequestDynamic db user amount m fid now
        = (db, Except.error Err.invalidAmount))
    ∧ (0 < amount → user.balance < amount →
      createWithdrawRequestDynamic db user amount m fid now
        = (db, Except.error Err.insufficientBalance))
    ∧ (0 < amount → amount ≤ user.balance → amount % 100 ≠ 0 →
      createWithdrawRequestDynamic db user amount m fid now
        = (db, Except.error Err.amountMustEndWith00)) := by
  refine ⟨?_, ?_, ?_⟩
  · intro h1
    unfold createWithdrawRequestDynamic
    rw [if_pos h1]
  · intro h1 h2
    unfold createWithdrawRequestDynamic
    rw [if_neg (by omega), if_pos (by omega)]
  · intro h1 h2 h3
    unfold createWithdrawRequestDynamic
    rw [if_neg (by omega), if_neg (by omega), if_pos h3]

/-- Witness for the amended C4 on all three failure branches. -/
theorem claim4_witness :
    createWithdrawRequestDynamic c4DB c4User (-50) "CBE" "wY" 0
        = (c4DB, Except.error Err.invalidAmount)
    ∧ createWithdrawRequestDynamic c4DB c4User 200 "CBE" "wY" 0
        = (c4DB, Except.error Err.insufficientBalance)
    ∧ createWithdrawRequestDynamic c4DB c4User 50 "CBE" "wY" 0
        = (c4DB, Except.error Err.amountMustEndWith00) :=
  ⟨(claim4_create_withdrawal_errors c4DB c4User (-50) "CBE" "wY" 0).1 (by decide),
   (claim4_create_withdrawal_errors c4DB c4User 200 "CBE" "wY" 0).2.1
     (by decide) (by decide),
   (claim4_create_withdrawal_errors c4DB c4User 50 "CBE" "wY" 0).2.2
     (by decide) (by decide) (by decide)⟩

/-- Registered user with balance 500 for the C5 session scenario. -/
def c5User : User :=
  { id := 7, name := "B", referralCode := "r7", referredBy := none,
    balance := 500, package := none, packageConfirmedAt := none, createdAt := 0 }

/-- Snapshot for the C5 scenario. -/
def c5DB : DB := { users := [c5User], pendingPurchases := [], withdraws := [] }

/-- Session map right after the withdraw command. -/
def c5Sess : Sessions := (withdrawCommand c5DB [] 7).1

/-- First text step of the scenario: the amount "200". -/
def c5Step1 : DB × Sessions × Reply := onText c5DB c5Sess 7 "200" "wA" 1

/-- Second text step of the scenario: the method "telebirr". -/
def c5Step2 : DB × Sessions × Reply := onText c5Step1.1 c5Step1.2.1 7 "telebirr" "wA" 2

/-- The single request the C5 scenario creates. -/
def c5Req : WithdrawReq :=
  { id := "wA", userId := 7, amount := 200, paymentMethod := some "Telebirr",
    status := Status.pending, note := none, createdAt := 2, updatedAt := 2 }

/-- Claim C5: the input sequence [withdraw, "200", "telebirr"] on a registered
user with balance 500 creates exactly one pending request of 200 via
"Telebirr" and leaves the balance at 300 with the session closed; the
sequence [withdraw, "cancel"] changes neither the snapshot nor leaves a
session open. -/
theorem claim5_withdraw_session_scenario :
    c5Step2.1.withdraws = [c5Req]
    ∧ balanceOf c5Step2.1 7 = some 300
    ∧ getSession c5Step2.2.1 7 = none
    ∧ (onText c5DB c5Sess 7 "cancel" "wB" 3).1 = c5DB
    ∧ getSession (onText c5DB c5Sess 7 "cancel" "wB" 3).2.1 7 = none := by
  refine ⟨?_, ?_, ?_, ?_, ?_⟩ <;> decide

theorem find?_updateFirst_none {α : Type} {p q : α → Bool} {f : α → α}
    {l : List α} (hp : ∀ x, p (f x) = p x) (h : l.find? p = none) :
    (updateFirst q f l).find? p = none := by
  induction l with
  | nil => rfl
  | cons b l ih =>
    cases hpb : p b with
    | true => rw [List.find?_cons_of_pos l hpb] at h; exact absurd h (by simp)
    | false =>
      rw [List.find?_cons_of_neg l (by simp [hpb])] at h
      cases hqb : q b with
      | true =>
        simp only [updateFirst, if_pos hqb]
        rw [List.find?_cons_of_neg l (by simp [hp, hpb])]
        exact h
      | false =>
        simp only [updateFirst, hqb, if_neg (by simp : ¬ (false = true))]
        rw [List.find?_cons_of_neg _ (by simp [hpb])]
        exact ih h

/-- Claim C6: confirming a VIP purchase credits exactly 500 to the user whose
referralCode equals the purchaser's referredBy, precisely when such a user
exists; when referredBy is null or resolves to no user, no balance changes.
The non-empty-code hypothesis mirrors JavaScript truthiness of
`user.referredBy`; registration never stores an empty code. -/
theorem claim6_confirm_vip_commission (db : DB) (userId : Nat) (u : User)
    (now : Nat) (hu : findUserById db userId = some u) :
    (∀ code ref, u.referredBy = some code → code ≠ "" →
      findUserByReferral db code = some ref →
      (findUserByReferral (confirmPurchase db userId "VIP" now).1 code).map
          User.balance
        = some (ref.balance + 500))
    ∧ (∀ code, u.referredBy = some code → code ≠ "" →
      findUserByReferral db code = none →
      ∀ uid, balanceOf (confirmPurchase db userId "VIP" now).1 uid
        = balanceOf db uid)
    ∧ (u.referredBy = none →
      ∀ uid, balanceOf (confirmPurchase db userId "VIP" now).1 uid
        = balanceOf db uid) := by
  have hpk : PACKAGES "VIP" = some { price := 3500, commission := 500 } := rfl
  have hu2 : db.users.find? (fun x => x.id == userId) = some u := hu
  refine ⟨?_, ?_, ?_⟩
  · intro code ref hcode hne href
    have href2 : db.users.find? (fun x => x.referralCode == code) = some ref := href
    have hmap := find?_map_updateFirst User.balance
      (p := fun x : User => x.referralCode == code)
      (q := fun x : User => x.id == userId)
      (f := fun x : User =>
        { x with package := some "VIP", packageConfirmedAt := some now })
      (l := db.users) (fun x => rfl) (fun x => rfl)
    rw [href2, Option.map_some'] at hmap
    obtain ⟨ref1, href1, hbal1⟩ := Option.map_eq_some'.mp hmap
    simp only [confirmPurchase, hu2, hpk, findUserByReferral, findUserById,
      strTruthy, hcode, if_neg hne, href1]
    rw [find?_updateFirst_self (q := fun x : User => x.referralCode == code)
      (f := fun x : User => { x with balance := x.balance + 500 })
      (fun x => rfl), href1]
    show some (ref1.balance + 500) = some (ref.balance + 500)
    rw [hbal1]
  · intro code hcode hne href uid
    have href2 : db.users.find? (fun x => x.referralCode == code) = none := href
    have hnone := find?_updateFirst_none
      (p := fun x : User => x.referralCode == code)
      (q := fun x : User => x.id == userId)
      (f := fun x : User =>
        { x with package := some "VIP", packageConfirmedAt := some now })
      (fun x => rfl) href2
    simp only [confirmPurchase, hu2, hpk, balanceOf, findUserById,
      findUserByReferral, strTruthy, hcode, if_neg hne, hnone]
    exact find?_map_updateFirst User.balance
      (p := fun x : User => x.id == uid)
      (q := fun x : User => x.id == userId)
      (f := fun x : User =>
        { x with package := some "VIP", packageConfirmedAt := some now })
      (l := db.users) (fun x => rfl) (fun x => rfl)
  · intro hnull uid
    simp only [confirmPurchase, hu2, hpk, balanceOf, findUserById,
      findUserByReferral, strTruthy, hnull]
    exact find?_map_updateFirst User.balance
      (p := fun x : User => x.id == uid)
      (q := fun x : User => x.id == userId)
      (f := fun x : User =>
        { x with package := some "VIP", packageConfirmedAt := some now })
      (l := db.users) (fun x => rfl) (fun x => rfl)

/-- Purchaser for the C6 witness. -/
def c6Buyer : User :=
  { id := 1, name := "P", referralCode := "p1", referredBy := some "q2",
    balance := 0, package := none, packageConfirmedAt := none, createdAt := 0 }

/-- Referrer for the C6 witness. -/
def c6Referrer : User :=
  { id := 2, name := "Q", referralCode := "q2", referredBy := none,
    balance := 100, package := none, packageConfirmedAt := none, createdAt := 0 }

/-- Snapshot for the C6 witness. -/
def c6DB : DB :=
  { users := [c6Buyer, c6Referrer], pendingPurchases := [], withdraws := [] }

/-- Witness for C6 at a concrete resolving referral. -/
theorem claim6_witness :
    (findUserByReferral (confirmPurchase c6DB 1 "VIP" 9).1 "q2").map User.balance
      = some (c6Referrer.balance + 500) :=
  (claim6_confirm_vip_commission c6DB 1 c6Buyer 9 (by decide)).1 "q2" c6Referrer
    rfl (by decide) (by decide)

theorem confirm_pending_ok {db : DB} {uid : Nat} {pt : String} {now : Nat}
    {u : User} {pack : PackageInfo}
    (hu : findUserById db uid = some u) (hp : PACKAGES pt = some pack) :
    (confirmPurchase db uid pt now).1.pendingPurchases
      = db.pendingPurchases.filter
          (fun p => !(p.userId == uid && p.package == pt)) := by
  simp only [confirmPurchase, hu, hp]
  split
  · rfl
  · split <;> rfl

/-- Claim C7: after recording a pending purchase and confirming the same
(user, package) pair, no pending entry for that exact pair remains, and every
previously present entry for a different user or package is still present
unmodified. -/
theorem claim7_confirm_clears_exact_pending (db : DB) (userId : Nat)
    (pt note fid : String) (t1 t2 : Nat) (u : User) (pack : PackageInfo)
    (hu : findUserById db userId = some u) (hp : PACKAGES pt = some pack) :
    (∀ e ∈ (confirmPurchase (addPendingPurchase db userId pt note fid t1).1
        userId pt t2).1.pendingPurchases,
      ¬(e.userId = userId ∧ e.package = pt))
    ∧ (∀ e ∈ db.pendingPurchases, ¬(e.userId = userId ∧ e.package = pt) →
      e ∈ (confirmPurchase (addPendingPurchase db userId pt note fid t1).1
        userId pt t2).1.pendingPurchases) := by
  have hadd : (addPendingPurchase db userId pt note fid t1).1
      = { db with pendingPurchases := db.pendingPurchases
          ++ [{ id := fid, userId := userId, package := pt, note := note,
                createdAt := t1 }] } := by
    simp only [addPendingPurchase, hu, hp]
  rw [hadd, @confirm_pending_ok
    { users := db.users,
      pendingPurchases := db.pendingPurchases
        ++ [{ id := fid, userId := userId, package := pt, note := note,
              createdAt := t1 }],
      withdraws := db.withdraws }
    userId pt t2 u pack hu hp]
  constructor
  · intro e he hcon
    have h2 := (List.mem_filter.mp he).2
    rw [hcon.1, hcon.2] at h2
    simp at h2
  · intro e he hne
    refine List.mem_filter.mpr ⟨List.mem_append_left _ he, ?_⟩
    simpa using not_and_or.mp hne

/-- User record for the C7 witness. -/
def c7User : User :=
  { id := 8, name := "S", referralCode := "r8", referredBy := none,
    balance := 0, package := none, packageConfirmedAt := none, createdAt := 0 }

/-- An unrelated pending entry (other package) for the C7 witness. -/
def c7Other : PendingPurchase :=
  { id := "p0", userId := 8, package := "Basic", note := "", createdAt := 0 }

/-- Snapshot for the C7 witness. -/
def c7DB : DB :=
  { users := [c7User], pendingPurchases := [c7Other], withdraws := [] }

/-- Witness for C7 at a concrete pending entry. -/
theorem claim7_witness :
    (∀ e ∈ (confirmPurchase (addPendingPurchase c7DB 8 "VIP" "n" "pX" 1).1
        8 "VIP" 2).1.pendingPurchases,
      ¬(e.userId = 8 ∧ e.package = "VIP"))
    ∧ (∀ e ∈ c7DB.pendingPurchases, ¬(e.userId = 8 ∧ e.package = "VIP") →
      e ∈ (confirmPurchase (addPendingPurchase c7DB 8 "VIP" "n" "pX" 1).1
        8 "VIP" 2).1.pendingPurchases) :=
  claim7_confirm_clears_exact_pending c7DB 8 "VIP" "n" "pX" 1 2 c7User
    { price := 3500, commission := 500 } (by decide) rfl

/-- C8 counterexample: registering in the empty snapshot with the
unresolvable code "ZZ" stores referredBy = some "ZZ"; the claim says an
unresolvable code is dropped and null is stored. -/
theorem claim8_counterexample :
    ((registerUserIfNotExists initialDB 5 "E" (some "ZZ") "rc" 0).2).referredBy
        = some "ZZ"
    ∧ findUserByReferral initialDB "ZZ" = none := by decide

/-- Claim C8 as amended: when a new user is created, the stored referredBy
equals the supplied referral code whenever a non-empty code is supplied —
whether or not it resolves to an existing user's referralCode — and is null
otherwise; resolution only gates the best-effort referrer notification. -/
theorem claim8_register_referredBy (db : DB) (fromId : Nat) (fromName : String)
    (referralCode : Option String) (freshCode : String) (now : Nat)
    (h : findUserById db fromId = none) :
    ((registerUserIfNotExists db fromId fromName referralCode freshCode
        now).2).referredBy
      = strTruthy referralCode := by
  simp only [registerUserIfNotExists, h]

/-- Witness for the amended C8. -/
theorem claim8_witness :
    ((registerUserIfNotExists initialDB 6 "F" (some "QQ") "rc" 0).2).referredBy
      = strTruthy (some "QQ") :=
  claim8_register_referredBy initialDB 6 "F" (some "QQ") "rc" 0 (by decide)

/-- Claim C9: registering the same identity twice returns the same record
both times and the second call changes nothing — neither the user list nor
the stored record, referralCode and balance included. -/
theorem claim9_register_idempotent (db : DB) (fromId : Nat) (n1 n2 : String)
    (c1 c2 : Option String) (f1 f2 : String) (t1 t2 : Nat) :
    registerUserIfNotExists (registerUserIfNotExists db fromId n1 c1 f1 t1).1
        fromId n2 c2 f2 t2
      = registerUserIfNotExists db fromId n1 c1 f1 t1 := by
  cases hfu : findUserById db fromId with
  | some u =>
    have e1 : registerUserIfNotExists db fromId n1 c1 f1 t1 = (db, u) := by
      simp only [registerUserIfNotExists, hfu]
    rw [e1]
    simp only [registerUserIfNotExists, hfu]
  | none =>
    have e1 : registerUserIfNotExists db fromId n1 c1 f1 t1
        = ({ db with users := db.users
              ++ [{ id := fromId, name := n1, referralCode := f1,
                    referredBy := strTruthy c1, balance := 0, package := none,
                    packageConfirmedAt := none, createdAt := t1 }] },
           { id := fromId, name := n1, referralCode := f1,
             referredBy := strTruthy c1, balance := 0, package := none,
             packageConfirmedAt := none, createdAt := t1 }) := by
      simp only [registerUserIfNotExists, hfu]
    rw [e1]
    have hfu2 : db.users.find? (fun x => x.id == fromId) = none := hfu
    have h2 : findUserById
        { db with users := db.users
            ++ [{ id := fromId, name := n1, referralCode := f1,
                  referredBy := strTruthy c1, balance := 0, package := none,
                  packageConfirmedAt := none, createdAt := t1 }] } fromId
        = some { id := fromId, name := n1, referralCode := f1,
                 referredBy := strTruthy c1, balance := 0, package := none,
                 packageConfirmedAt := none, createdAt := t1 } := by
      show (db.users ++ [_]).find? (fun x : User => x.id == fromId) = _
      rw [List.find?_append, hfu2]
      simp
    simp only [registerUserIfNotExists, h2]

/-- Claim C10: the legacy full-balance withdrawal never fails: it appends a
pending request for the user's entire current balance (zero included) and
resets the stored balance to 0. -/
theorem claim10_legacy_withdraw_total (db : DB) (user stored : User)
    (fid : String) (now : Nat)
    (hu : findUserById db user.id = some stored) :
    (createWithdrawRequest db user fid now).1.withdraws
        = db.withdraws ++ [(createWithdrawRequest db user fid now).2]
    ∧ ((createWithdrawRequest db user fid now).2).status = Status.pending
    ∧ ((createWithdrawRequest db user fid now).2).amount = user.balance
    ∧ ((createWithdrawRequest db user fid now).2).userId = user.id
    ∧ balanceOf (createWithdrawRequest db user fid now).1 user.id = some 0 := by
  refine ⟨rfl, rfl, rfl, rfl, ?_⟩
  have hu2 : db.users.find? (fun x => x.id == user.id) = some stored := hu
  show ((updateFirst (fun x => x.id == user.id)
      (fun x => { x with balance := 0 }) db.users).find?
      (fun x => x.id == user.id)).map User.balance = some 0
  rw [find?_updateFirst_self (q := fun x : User => x.id == user.id)
    (f := fun x : User => { x with balance := 0 }) (fun x => rfl), hu2]
  rfl

/-- Zero-balance user for the C10 witness. -/
def c10User : User :=
  { id := 4, name := "Z", referralCode := "r4", referredBy := none,
    balance := 0, package := none, packageConfirmedAt := none, createdAt := 0 }

/-- Snapshot for the C10 witness. -/
def c10DB : DB := { users := [c10User], pendingPurchases := [], withdraws := [] }

/-- Witness for C10 on a user whose balance is 0: a zero-amount pending
request is created. -/
theorem claim10_witness :
    (createWithdrawRequest c10DB c10User "w0" 1).1.withdraws
        = c10DB.withdraws ++ [(createWithdrawRequest c10DB c10User "w0" 1).2]
    ∧ ((createWithdrawRequest c10DB c10User "w0" 1).2).status = Status.pending
    ∧ ((createWithdrawRequest c10DB c10User "w0" 1).2).amount = c10User.balance
    ∧ ((createWithdrawRequest c10DB c10User "w0" 1).2).userId = c10User.id
    ∧ balanceOf (createWithdrawRequest c10DB c10User "w0" 1).1 c10User.id
        = some 0 :=
  claim10_legacy_withdraw_total c10DB c10User c10User "w0" 1 (by decide)

end PoppositeRef
